import Mathlib

/-!
Verification of the battle resolution engine of GameQuestRealm2.

The definitions below are a shallow embedding of the battle store in
src/client/src/lib/stores/useBattle.tsx.  The zustand store is modelled as a
state record `BattleState`; each store action becomes a function from state to
state.  The zustand update discipline is preserved faithfully: an action that
calls `set(fn)` computes its result from the snapshot passed to `fn`, while
nested `get().action()` calls made inside the updater run against the live
store first, and the partial object returned by the updater is merged over the
live store afterwards.  JavaScript `Math.max(0, a - b)` on non-negative
integers is modelled by truncated `Nat` subtraction, and `Math.floor(x * (p /
100))` by `Nat` division.  The two `setTimeout` callbacks scheduled by
`endTurn` are reified as `Timer` values returned next to the new state; firing
a timer is the `fireTimer` function.  Calls to the external collaborators
`gainExperience` and `addCard` (progression and collection stores) are
recorded in the `expGained` and `rewardsGranted` log fields of the state.
Sources of randomness (the 70 percent reward roll, the middle-band enemy card
pick) are passed in as explicit parameters.
-/

namespace GameQuest

/-- The CardEffect union from src/client/src/lib/CardData.ts.  An absent
(undefined) effect behaves exactly like the literal none everywhere in the
battle store, so both are modelled by the none constructor. -/
inductive CardEffect where
  | none
  | stun
  | heal
  | shield
  | burn
  | leech
  | boost
  | weaken
  | double_attack
  | reflect
  | freeze
deriving DecidableEq, Repr

/-- Combat-relevant fields of a Card (CardData.ts).  Display fields (id, name,
description, rarity, type, color, creatureType, cost, unlockLevel) play no
role in the battle store and are omitted.  effectPower and effectDuration are
optional in the source and read through the JavaScript or-defaults
`effectPower || 0` and `effectDuration || 1`. -/
structure Card where
  power : Nat
  effect : CardEffect := CardEffect.none
  effectPower : Option Nat := Option.none
  effectDuration : Option Nat := Option.none
deriving DecidableEq, Repr

/-- JavaScript `card.effectPower || 0`. -/
def Card.effPower (c : Card) : Nat := c.effectPower.getD 0

/-- JavaScript `card.effectDuration || 1`: undefined and 0 are both falsy and
yield 1. -/
def Card.effDuration (c : Card) : Nat :=
  match c.effectDuration with
  | Option.some n => if n = 0 then 1 else n
  | Option.none => 1

/-- BattleTurn from useBattle.tsx. -/
inductive BattleTurn where
  | player
  | enemy
deriving DecidableEq, Repr

/-- The non-null values of BattleOutcome from useBattle.tsx; the null case is
modelled with Option. -/
inductive BattleOutcome where
  | win
  | lose
deriving DecidableEq, Repr

/-- The target argument of applyCardEffect. -/
inductive Target where
  | player
  | enemy
deriving DecidableEq, Repr

/-- StatusEffect from useBattle.tsx. -/
structure StatusEffect where
  effect : CardEffect
  power : Nat
  duration : Nat
  sourceCard : Card
deriving DecidableEq, Repr

/-- The battle store state (interface BattleState in useBattle.tsx), plus two
log fields recording the calls the store makes to the external progression and
collection collaborators (gainExperience amounts, and the number of reward
cards added via addCard). -/
structure BattleState where
  active : Bool
  level : Nat
  playerHealth : Nat
  playerMaxHealth : Nat
  enemyHealth : Nat
  enemyMaxHealth : Nat
  playerCards : List Card
  enemyCards : List Card
  activeCard : Option Card
  enemyActiveCard : Option Card
  playerEffects : List StatusEffect
  enemyEffects : List StatusEffect
  currentTurn : BattleTurn
  outcome : Option BattleOutcome
  playerSkipNextTurn : Bool
  enemySkipNextTurn : Bool
  expGained : List Nat
  rewardsGranted : Nat
deriving DecidableEq, Repr

/-- The initial store state (lines 62 to 86 of useBattle.tsx). -/
def initState : BattleState where
  active := false
  level := 1
  playerHealth := 100
  playerMaxHealth := 100
  enemyHealth := 50
  enemyMaxHealth := 50
  playerCards := []
  enemyCards := []
  activeCard := Option.none
  enemyActiveCard := Option.none
  playerEffects := []
  enemyEffects := []
  currentTurn := BattleTurn.player
  outcome := Option.none
  playerSkipNextTurn := false
  enemySkipNextTurn := false
  expGained := []
  rewardsGranted := 0

/-- endBattle: sets the terminal outcome (the toasts are notification-only). -/
def endBattle (o : BattleOutcome) (s : BattleState) : BattleState :=
  { s with outcome := Option.some o }

/-- Call to the external progression collaborator gainExperience, recorded in
the log field. -/
def gainExperience (amount : Nat) (s : BattleState) : BattleState :=
  { s with expGained := s.expGained ++ [amount] }

/-- Call to the external collection collaborator addCard with a freshly
generated reward card, recorded as a count. -/
def addRewardCard (s : BattleState) : BattleState :=
  { s with rewardsGranted := s.rewardsGranted + 1 }

/-- The StatusEffect built by applyCardEffect from a played card. -/
def mkStatusEffect (card : Card) : StatusEffect :=
  { effect := card.effect
    power := card.effPower
    duration := card.effDuration
    sourceCard := card }

/-- applyCardEffect (lines 486 to 570).  The snapshot passed to the updater is
the state at invocation; the nested `set` in the stun case commits to the live
store before the partial returned by the updater is merged.  In the target =
enemy branch the immediate burn damage is applied and the effect is appended
to the enemy ledger unless the burn damage ended the battle; in the target =
player branch the immediate heal is applied and the effect is appended to the
player ledger. -/
def applyCardEffect (card : Card) (target : Target) (s : BattleState) : BattleState :=
  if card.effect = CardEffect.none then s
  else
    let statusEffect := mkStatusEffect card
    match target with
    | Target.enemy =>
      let live := if card.effect = CardEffect.stun then { s with enemySkipNextTurn := true } else s
      let newEnemyHealth :=
        if card.effect = CardEffect.burn then s.enemyHealth - card.effPower else s.enemyHealth
      if newEnemyHealth ≤ 0 then
        { endBattle BattleOutcome.win live with enemyHealth := 0 }
      else
        { live with
            enemyHealth := newEnemyHealth
            enemyEffects := s.enemyEffects ++ [statusEffect] }
    | Target.player =>
      let newPlayerHealth :=
        if card.effect = CardEffect.heal
        then min s.playerMaxHealth (s.playerHealth + card.effPower)
        else s.playerHealth
      { s with
          playerHealth := newPlayerHealth
          playerEffects := s.playerEffects ++ [statusEffect] }

/-- Sequential burn ticking performed by the map callbacks in
updateStatusEffects: each burn entry subtracts its power from the running
health, floored at 0 (Nat subtraction). -/
def tickBurn (h : Nat) (effects : List StatusEffect) : Nat :=
  effects.foldl (fun acc e => if e.effect = CardEffect.burn then acc - e.power else acc) h

/-- The map-then-filter pass of updateStatusEffects on one ledger: decrement
every duration by one when dec is true, then drop entries whose duration is
not positive. -/
def decayList (effects : List StatusEffect) (dec : Bool) : List StatusEffect :=
  (effects.map (fun e => { e with duration := if dec then e.duration - 1 else e.duration })).filter
    (fun e => 0 < e.duration)

/-- updateStatusEffects (lines 573 to 631).  Player burn entries tick when the
current turn is player; enemy burn entries tick when it is enemy.  Player
ledger durations decrement when the current turn is enemy, enemy ledger
durations when it is player.  If the ticks bring a side to 0, endBattle fires
and only that health field is merged (the updated ledgers are discarded in
that branch, exactly as in the source). -/
def updateStatusEffects (s : BattleState) : BattleState :=
  let newPlayerHealth :=
    if s.currentTurn = BattleTurn.player then tickBurn s.playerHealth s.playerEffects
    else s.playerHealth
  let newEnemyHealth :=
    if s.currentTurn = BattleTurn.enemy then tickBurn s.enemyHealth s.enemyEffects
    else s.enemyHealth
  let updatedPlayerEffects := decayList s.playerEffects (s.currentTurn = BattleTurn.enemy)
  let updatedEnemyEffects := decayList s.enemyEffects (s.currentTurn = BattleTurn.player)
  if newPlayerHealth ≤ 0 then
    { endBattle BattleOutcome.lose s with playerHealth := 0 }
  else if newEnemyHealth ≤ 0 then
    { endBattle BattleOutcome.win s with enemyHealth := 0 }
  else
    { s with
        playerHealth := newPlayerHealth
        enemyHealth := newEnemyHealth
        playerEffects := updatedPlayerEffects
        enemyEffects := updatedEnemyEffects }

/-- The boost pass of the attack-power computation: the boost entries of the
attacker ledger are filtered out and each adds its power (the for loop over
`filter(effect === boost)`). -/
def applyBoosts (base : Nat) (attackerEffects : List StatusEffect) : Nat :=
  (attackerEffects.filter (fun e => e.effect = CardEffect.boost)).foldl
    (fun acc e => acc + e.power) base

/-- The weaken pass: each weaken entry of the defender ledger lowers the power,
clamped below at 1 at every step (`Math.max(1, actualPower - effect.power)`). -/
def applyWeakens (base : Nat) (defenderEffects : List StatusEffect) : Nat :=
  (defenderEffects.filter (fun e => e.effect = CardEffect.weaken)).foldl
    (fun acc e => max 1 (acc - e.power)) base

/-- The full effective-power computation shared by both attack paths: the card
power, plus the attacker-side boosts, then the defender-side weakens. -/
def effectiveAttackPower (cardPower : Nat) (attackerEffects defenderEffects : List StatusEffect) : Nat :=
  applyWeakens (applyBoosts cardPower attackerEffects) defenderEffects

/-- Sum of the shield entry powers of a ledger
(`shieldEffects.reduce((total, effect) => total + effect.power, 0)`). -/
def shieldSum (defenderEffects : List StatusEffect) : Nat :=
  (defenderEffects.filter (fun e => e.effect = CardEffect.shield)).foldl
    (fun total e => total + e.power) 0

/-- The shield-then-damage step applied to the defender health: when the
defender ledger has shield entries the damage is `max(0, power - blocked)`,
otherwise the full power; the result is floored at 0. -/
def applyShieldedDamage (attackPower health : Nat) (defenderEffects : List StatusEffect) : Nat :=
  if (defenderEffects.filter (fun e => e.effect = CardEffect.shield)).length > 0 then
    health - (attackPower - shieldSum defenderEffects)
  else
    health - attackPower

/-- The reflect amount taken from the first reflect entry of the defender
ledger: `Math.floor(actualPower * (reflectEffect.power / 100))`, or 0 when the
defender has no reflect entries. -/
def reflectAmount (attackPower : Nat) (defenderEffects : List StatusEffect) : Nat :=
  match (defenderEffects.filter (fun e => e.effect = CardEffect.reflect)).head? with
  | Option.some r => attackPower * r.power / 100
  | Option.none => 0

/-- The two deferred callbacks scheduled by endTurn.  returnToPlayer is the
body shared by the timers at lines 318 and 456 (set currentTurn to player and
clear enemyActiveCard); enemyAct is the enemy-action callback at line 326,
which closes over the enemyCards list read when endTurn ran. -/
inductive Timer where
  | returnToPlayer
  | enemyAct (cards : List Card)
deriving DecidableEq, Repr

/-- The updater of the big `set` in playCard (lines 194 to 293), evaluated
against the snapshot taken when the set ran.  Nested get() calls (endBattle,
applyCardEffect, the experience and reward-card collaborator calls) mutate the
live store, and the partial object returned by the updater is merged over the
live store at the end; in the early-return branches only the fields of the
returned partial are merged. -/
def playCardResolve (rewardRoll : Bool) (card : Card) (actualPower : Nat)
    (σ : BattleState) : BattleState :=
  let newEnemyHealth := applyShieldedDamage actualPower σ.enemyHealth σ.enemyEffects
  let reflects := σ.enemyEffects.filter (fun e => e.effect = CardEffect.reflect)
  let newPlayerHealth1 :=
    if reflects.length > 0 then σ.playerHealth - reflectAmount actualPower σ.enemyEffects
    else σ.playerHealth
  if reflects.length > 0 ∧ newPlayerHealth1 ≤ 0 then
    { endBattle BattleOutcome.lose σ with playerHealth := 0 }
  else
    let newPlayerHealth2 :=
      if card.effect = CardEffect.leech then
        min σ.playerMaxHealth (newPlayerHealth1 + min actualPower card.effPower)
      else newPlayerHealth1
    let live := applyCardEffect card Target.enemy σ
    if newEnemyHealth ≤ 0 then
      let live := endBattle BattleOutcome.win live
      let live := gainExperience (50 + σ.level * 25) live
      let live := if rewardRoll then addRewardCard live else live
      { live with enemyHealth := 0, playerHealth := newPlayerHealth2 }
    else if card.effect = CardEffect.double_attack then
      let newEnemyHealth2 := newEnemyHealth - actualPower
      if newEnemyHealth2 ≤ 0 then
        let live := endBattle BattleOutcome.win live
        let live := gainExperience (50 + σ.level * 25) live
        { live with enemyHealth := 0, playerHealth := newPlayerHealth2 }
      else
        { live with enemyHealth := newEnemyHealth2, playerHealth := newPlayerHealth2 }
    else
      { live with enemyHealth := newEnemyHealth, playerHealth := newPlayerHealth2 }

/-- The updater of the `set` inside the enemy-action callback (lines 384 to
453), against the snapshot taken when that set ran (enemyActiveCard already
assigned).  Same live-store discipline as playCardResolve.  In the lose and
reflect-win early returns only the single health field of the partial is
merged. -/
def enemyResolve (enemyCard : Card) (actualPower : Nat) (σ : BattleState) : BattleState :=
  let newPlayerHealth := applyShieldedDamage actualPower σ.playerHealth σ.playerEffects
  let reflects := σ.playerEffects.filter (fun e => e.effect = CardEffect.reflect)
  let newEnemyHealth1 :=
    if reflects.length > 0 then σ.enemyHealth - reflectAmount actualPower σ.playerEffects
    else σ.enemyHealth
  if reflects.length > 0 ∧ newEnemyHealth1 ≤ 0 then
    { endBattle BattleOutcome.win σ with enemyHealth := 0 }
  else
    let live := applyCardEffect enemyCard Target.player σ
    if newPlayerHealth ≤ 0 then
      { endBattle BattleOutcome.lose live with playerHealth := 0 }
    else if enemyCard.effect = CardEffect.double_attack then
      let newPlayerHealth2 := newPlayerHealth - actualPower
      if newPlayerHealth2 ≤ 0 then
        { endBattle BattleOutcome.lose live with playerHealth := 0 }
      else
        { live with playerHealth := newPlayerHealth2, enemyHealth := newEnemyHealth1 }
    else
      { live with playerHealth := newPlayerHealth, enemyHealth := newEnemyHealth1 }

/-- First-occurrence index of the maximum-power card, the
`reduce((bestIndex, card, currentIndex, cards) => ...)` selection. -/
def argmaxPower (cards : List Card) : Nat :=
  (List.range cards.length).foldl
    (fun best i =>
      if (cards.getD i { power := 0 }).power > (cards.getD best { power := 0 }).power then i
      else best)
    0

/-- The enemy AI policy (lines 329 to 359): below 30 percent player health pick
the strongest card, above 70 percent pick the first card with a non-none
effect (falling back to the strongest), otherwise pick randomly.  The float
comparisons `playerHealth < playerMaxHealth * 0.3` and `> * 0.7` are modelled
as the exact rational comparisons; the random middle pick is the randIdx
parameter reduced modulo the hand size. -/
def selectEnemyCardIndex (randIdx : Nat) (cards : List Card)
    (playerHealth playerMaxHealth : Nat) : Nat :=
  if playerHealth * 10 < playerMaxHealth * 3 then argmaxPower cards
  else if playerHealth * 10 > playerMaxHealth * 7 then
    match cards.findIdx? (fun c => decide (c.effect ≠ CardEffect.none)) with
    | Option.some i => i
    | Option.none => argmaxPower cards
  else randIdx % cards.length

/-- The enemy-action callback scheduled by endTurn (lines 326 to 463): select a
card, set enemyActiveCard, compute the effective power from the enemy boosts
and the player weakens, resolve the attack, and schedule the return to the
player turn; with an empty hand the player wins immediately (no experience and
no reward are granted on that path). -/
def fireEnemyAct (randIdx : Nat) (cards : List Card) (s : BattleState) :
    BattleState × List Timer :=
  if cards.length > 0 then
    let idx := selectEnemyCardIndex randIdx cards s.playerHealth s.playerMaxHealth
    let enemyCard := cards.getD idx { power := 0 }
    let s1 := { s with enemyActiveCard := Option.some enemyCard }
    let actualPower := effectiveAttackPower enemyCard.power s1.enemyEffects s1.playerEffects
    (enemyResolve enemyCard actualPower s1, [Timer.returnToPlayer])
  else
    (endBattle BattleOutcome.win s, [])

/-- Firing one scheduled timer against the current store state. -/
def fireTimer (randIdx : Nat) (t : Timer) (s : BattleState) : BattleState × List Timer :=
  match t with
  | Timer.returnToPlayer =>
    ({ s with currentTurn := BattleTurn.player, enemyActiveCard := Option.none }, [])
  | Timer.enemyAct cards => fireEnemyAct randIdx cards s

/-- endTurn (lines 297 to 468).  The guard reads the outcome before anything
runs; updateStatusEffects runs next (its own endBattle, if any, is not
re-checked); then the turn switches.  Ending the player turn schedules either
the stun-skip return or the enemy action; ending the enemy turn returns to the
player immediately with no scheduled work. -/
def endTurn (s : BattleState) : BattleState × List Timer :=
  let currentTurn := s.currentTurn
  let enemyCards := s.enemyCards
  let enemySkip := s.enemySkipNextTurn
  if s.outcome.isSome then (s, [])
  else
    let s := updateStatusEffects s
    if currentTurn = BattleTurn.player then
      let s := { s with currentTurn := BattleTurn.enemy, activeCard := Option.none }
      if enemySkip then
        ({ s with enemySkipNextTurn := false }, [Timer.returnToPlayer])
      else
        (s, [Timer.enemyAct enemyCards])
    else
      ({ s with currentTurn := BattleTurn.player, enemyActiveCard := Option.none }, [])

/-- playCard (lines 149 to 294).  Guards: a set outcome or a non-player turn is
a silent no-op; a stunned player consumes the flag and forces endTurn; an
out-of-range index is a no-op.  Otherwise the card becomes the activeCard, the
effective power is computed from the player boosts and the enemy weakens, and
the big resolution set runs.  rewardRoll is the outcome of the
`Math.random() < 0.7` reward roll used if this play wins the battle. -/
def playCard (rewardRoll : Bool) (cardIndex : Nat) (s : BattleState) :
    BattleState × List Timer :=
  if s.outcome.isSome ∨ s.currentTurn ≠ BattleTurn.player then (s, [])
  else if s.playerSkipNextTurn then
    endTurn { s with playerSkipNextTurn := false }
  else if h : cardIndex < s.playerCards.length then
    let card := s.playerCards.get ⟨cardIndex, h⟩
    let s1 := { s with activeCard := Option.some card }
    let actualPower := effectiveAttackPower card.power s1.playerEffects s1.enemyEffects
    (playCardResolve rewardRoll card actualPower s1, [])
  else (s, [])

/-- startBattle (lines 89 to 135).  The player health and max health come from
the external character collaborator, the battle hand from the external
collection collaborator, and the enemy cards from the external generator;
those three inputs are parameters here.  Enemy health is `30 + level * 20`. -/
def startBattle (health maxHealth : Nat) (hand enemyHand : List Card) (level : Nat)
    (s : BattleState) : BattleState :=
  { s with
      active := true
      level := level
      playerHealth := health
      playerMaxHealth := maxHealth
      enemyHealth := 30 + level * 20
      enemyMaxHealth := 30 + level * 20
      playerCards := hand
      enemyCards := enemyHand
      activeCard := Option.none
      enemyActiveCard := Option.none
      playerEffects := []
      enemyEffects := []
      currentTurn := BattleTurn.player
      outcome := Option.none
      playerSkipNextTurn := false
      enemySkipNextTurn := false }

/-- startNewBattle (lines 138 to 146): clears only the listed transient
fields; note that the ledgers are not among them. -/
def startNewBattle (s : BattleState) : BattleState :=
  { s with
      active := false
      activeCard := Option.none
      enemyActiveCard := Option.none
      currentTurn := BattleTurn.player
      outcome := Option.none }

/-- One step of the battle system: any store operation, or the firing of one of
the deferred timers.  The startBattle step carries the contract of the
external character collaborator that the health it reports never exceeds its
max health (the character store levels up by setting health to the new max and
otherwise only clamps). -/
inductive Step : BattleState → BattleState → Prop where
  | start (health maxHealth : Nat) (hand enemyHand : List Card) (level : Nat)
      (s : BattleState) (hle : health ≤ maxHealth) :
      Step s (startBattle health maxHealth hand enemyHand level s)
  | play (rewardRoll : Bool) (cardIndex : Nat) (s : BattleState) :
      Step s (playCard rewardRoll cardIndex s).1
  | turn (s : BattleState) : Step s (endTurn s).1
  | fire (randIdx : Nat) (t : Timer) (s : BattleState) :
      Step s (fireTimer randIdx t s).1
  | applyEff (card : Card) (target : Target) (s : BattleState) :
      Step s (applyCardEffect card target s)
  | updateEff (s : BattleState) : Step s (updateStatusEffects s)
  | endB (o : BattleOutcome) (s : BattleState) : Step s (endBattle o s)
  | newBattle (s : BattleState) : Step s (startNewBattle s)

/-- The states reachable from the initial store state through the battle
operations and timer firings. -/
def Reachable (s : BattleState) : Prop :=
  Relation.ReflTransGen Step initState s

/-- The health-bounds invariant of the data model: both combatants stay inside
[0, maxHealth] (the lower bound is definitional with Nat health). -/
def HealthInv (s : BattleState) : Prop :=
  s.playerHealth ≤ s.playerMaxHealth ∧ s.enemyHealth ≤ s.enemyMaxHealth

/-! Concrete fixtures used by the counterexamples and witnesses. -/

/-- A card with no special effect. -/
def plainCard (p : Nat) : Card := { power := p }

/-- A shield card as the player would draw it. -/
def shieldCard : Card :=
  { power := 3, effect := CardEffect.shield
    effectPower := Option.some 5, effectDuration := Option.some 2 }

/-- A heal card as the enemy generator produces it. -/
def healCard : Card :=
  { power := 5, effect := CardEffect.heal
    effectPower := Option.some 7, effectDuration := Option.some 1 }

/-- A double-attack card of power 10. -/
def daCard : Card := { power := 10, effect := CardEffect.double_attack }

/-- A burn card whose direct damage is lethal against the level-1 enemy. -/
def burnKillCard : Card :=
  { power := 50, effect := CardEffect.burn
    effectPower := Option.some 5, effectDuration := Option.some 2 }

/-- A leech card of power 10. -/
def leechCard : Card :=
  { power := 10, effect := CardEffect.leech, effectPower := Option.some 5 }

/-- A shield ledger entry of power 4. -/
def shieldEntry4 : StatusEffect :=
  { effect := CardEffect.shield, power := 4, duration := 2, sourceCard := plainCard 1 }

/-- A full-strength reflect ledger entry. -/
def reflectEntry100 : StatusEffect :=
  { effect := CardEffect.reflect, power := 100, duration := 2, sourceCard := plainCard 1 }

/-- A 50 percent reflect ledger entry. -/
def reflectEntry50 : StatusEffect :=
  { effect := CardEffect.reflect, power := 50, duration := 2, sourceCard := plainCard 1 }

/-- A weaken ledger entry with two turns left, owned by the player side. -/
def weakenEntry2 : StatusEffect :=
  { effect := CardEffect.weaken, power := 2, duration := 2, sourceCard := plainCard 1 }

/-- A fresh level-1 battle in which the player holds one shield card. -/
def stateShieldPlay : BattleState := startBattle 100 100 [shieldCard] [plainCard 1] 1 initState

/-- A level-1 battle with the player at 90 of 100 health, the enemy holding a
heal card. -/
def stateHealTarget : BattleState :=
  { startBattle 100 100 [] [healCard] 1 initState with playerHealth := 90 }

/-- A battle where the player holds the double-attack card and the enemy has 20
health and a power-4 shield entry. -/
def stateDoubleShield : BattleState :=
  { startBattle 100 100 [daCard] [plainCard 1] 1 initState with
      enemyHealth := 20, enemyEffects := [shieldEntry4] }

/-- The snapshot of the spec scenario: double-attack card played against an
enemy at 15 health with no shield (activeCard already assigned). -/
def stateDoubleSnap : BattleState :=
  { startBattle 100 100 [daCard] [plainCard 1] 1 initState with
      enemyHealth := 15, activeCard := Option.some daCard }

/-- A battle with the player at 10 health attacking an enemy that carries a 100
percent reflect entry. -/
def stateReflectDeath : BattleState :=
  { startBattle 10 100 [leechCard] [plainCard 1] 1 initState with
      enemyEffects := [reflectEntry100] }

/-- A resolution snapshot with two stacked 50 percent reflect entries on the
enemy and the player at 5 health. -/
def stateReflectSnap : BattleState :=
  { startBattle 5 100 [plainCard 10] [plainCard 1] 1 initState with
      enemyEffects := [reflectEntry50, reflectEntry50],
      activeCard := Option.some (plainCard 10) }

/-- A fresh level-1 battle in which the player holds the lethal burn card. -/
def stateBurnWin : BattleState := startBattle 100 100 [burnKillCard] [plainCard 1] 1 initState

/-- A battle at the end of the player turn with a stunned enemy and a
player-owned weaken entry with two turns left. -/
def stateStunCycle : BattleState :=
  { startBattle 100 100 [] [plainCard 1] 1 initState with
      playerEffects := [weakenEntry2], enemySkipNextTurn := true }

/-- An ended battle (outcome win, reached for example through a reflect kill
during the enemy turn) with the deferred timers of that enemy turn still in
flight. -/
def stateEnded : BattleState :=
  { startBattle 100 100 [] [healCard] 1 initState with
      currentTurn := BattleTurn.enemy, playerHealth := 50,
      outcome := Option.some BattleOutcome.win }

/-- An enemy turn in a battle whose enemy hand is empty. -/
def stateEnemyNoCards : BattleState :=
  { startBattle 100 100 [] [] 1 initState with currentTurn := BattleTurn.enemy }

/-- A resolution snapshot in which the pending plain attack of power 10 is
lethal against the enemy at 8 health. -/
def stateLethalSnap : BattleState :=
  { startBattle 100 100 [plainCard 10] [plainCard 1] 1 initState with
      enemyHealth := 8, activeCard := Option.some (plainCard 10) }

/-- An enemy-attack snapshot in which the player carries a 100 percent reflect
entry and the enemy, at 10 health, dies to its own reflected power-10
attack. -/
def stateEnemyReflectWin : BattleState :=
  { startBattle 100 100 [] [plainCard 10] 1 initState with
      currentTurn := BattleTurn.enemy, playerEffects := [reflectEntry100],
      enemyHealth := 10 }

/-- A battle in which the immediate damage of the burn card (effect power 5)
finishes the enemy at 4 health. -/
def stateBurnFinisher : BattleState :=
  { startBattle 100 100 [burnKillCard] [plainCard 1] 1 initState with
      enemyHealth := 4 }

/-- An enemy turn in which the burn entry on the enemy ledger ticks the enemy
from 3 health to 0. -/
def stateTickWin : BattleState :=
  { startBattle 100 100 [] [plainCard 1] 1 initState with
      currentTurn := BattleTurn.enemy, enemyHealth := 3,
      enemyEffects := [mkStatusEffect burnKillCard] }

/-! Theorems. -/

/-- Claim C1, counterexample: the claim says a player-played shield card adds a
shield entry to the ledger of the player, and an enemy-played heal card heals
the enemy.  In the code the player plays the shield card and the shield entry
lands on the ledger of the enemy while the player ledger stays empty; and
applyCardEffect of a heal card with target player (the enemy-turn call) raises
the health of the player from 90 to 97 while the enemy health is unchanged. -/
theorem effect_placement_counterexample :
    (playCard false 0 stateShieldPlay).1.playerEffects = [] ∧
    (playCard false 0 stateShieldPlay).1.enemyEffects = [mkStatusEffect shieldCard] ∧
    stateHealTarget.playerHealth = 90 ∧
    (applyCardEffect healCard Target.player stateHealTarget).playerHealth = 97 ∧
    (applyCardEffect healCard Target.player stateHealTarget).enemyHealth
      = stateHealTarget.enemyHealth :=
  ⟨rfl, rfl, rfl, rfl, rfl⟩

/-- Claim C2 (code bug): over the full player-to-enemy-to-player cycle in which
the stunned enemy skips its turn, the engine runs no decay at the enemy-turn
boundary: the player-owned weaken entry still has duration 2 when the turn is
back with the player, though the claim requires exactly one decrement per full
cycle. -/
theorem decay_skipped_on_stunned_enemy_turn :
    (endTurn stateStunCycle).2 = [Timer.returnToPlayer] ∧
    (fireTimer 0 Timer.returnToPlayer (endTurn stateStunCycle).1).1.currentTurn
      = BattleTurn.player ∧
    (fireTimer 0 Timer.returnToPlayer (endTurn stateStunCycle).1).1.outcome = Option.none ∧
    (fireTimer 0 Timer.returnToPlayer (endTurn stateStunCycle).1).1.playerEffects
      = [weakenEntry2] :=
  ⟨rfl, rfl, rfl, rfl⟩

/-- Claim C3 (code bug): with the outcome already set to win, the deferred
return-to-player timer still flips currentTurn, and the deferred enemy action
still plays a card, lowers the health of the player from 50 to 45 and appends
to the player ledger: the callbacks do not re-check the outcome and are not
no-ops after the Ended state. -/
theorem deferred_callbacks_mutate_after_ended :
    stateEnded.outcome = Option.some BattleOutcome.win ∧
    stateEnded.currentTurn = BattleTurn.enemy ∧
    (fireTimer 0 Timer.returnToPlayer stateEnded).1.currentTurn = BattleTurn.player ∧
    stateEnded.playerHealth = 50 ∧
    (fireTimer 0 (Timer.enemyAct [healCard]) stateEnded).1.playerHealth = 45 ∧
    (fireTimer 0 (Timer.enemyAct [healCard]) stateEnded).1.playerEffects
      ≠ stateEnded.playerEffects :=
  ⟨rfl, rfl, rfl, rfl, rfl, by decide⟩

/-- Claim C4, counterexample: attacker effective power 10, defender at 20
health with a power-4 shield entry.  The first hit deals 10 - 4 = 6; the claim
says the second hit is shield-reduced again (20 - 6 - 6 = 8), but the code
subtracts the full power the second time, leaving the enemy at 4. -/
theorem double_attack_shield_counterexample :
    (playCard false 0 stateDoubleShield).1.enemyHealth = 4 ∧
    (playCard false 0 stateDoubleShield).1.enemyHealth ≠ 20 - (10 - 4) - (10 - 4) :=
  ⟨rfl, by decide⟩

/-- Claim C7, counterexample: a win produced by the enemy running out of cards
sets the outcome but awards no experience at all, though the claim requires
50 + level * 25 experience on every win. -/
theorem win_reward_counterexample :
    (fireTimer 0 (Timer.enemyAct []) stateEnemyNoCards).1.outcome
      = Option.some BattleOutcome.win ∧
    (fireTimer 0 (Timer.enemyAct []) stateEnemyNoCards).1.expGained = [] ∧
    stateEnemyNoCards.level = 1 :=
  ⟨rfl, rfl, rfl⟩

/-- Claim C8, counterexample: the player attacks with power 10 into a 100
percent reflect and dies to the reflected damage.  The claim says the 10
damage already dealt to the defender in the shield step stays applied (enemy
at 40); the code merges only playerHealth 0 and the outcome, so the enemy is
still at its full 50 health. -/
theorem reflect_commit_counterexample :
    (playCard false 0 stateReflectDeath).1.outcome = Option.some BattleOutcome.lose ∧
    (playCard false 0 stateReflectDeath).1.playerHealth = 0 ∧
    stateReflectDeath.enemyHealth = 50 ∧
    (playCard false 0 stateReflectDeath).1.enemyHealth = 50 ∧
    (playCard false 0 stateReflectDeath).1.enemyHealth ≠ 50 - 10 :=
  ⟨rfl, rfl, rfl, rfl, by decide⟩

/-- Claim C9, counterexample: a battle reached by startBattle followed by
playCard of a lethal burn card ends with outcome win while the burn entry is
still sitting on the enemy ledger: the ledgers are not emptied when the battle
ends. -/
theorem ledger_cleared_counterexample :
    (playCard false 0 stateBurnWin).1.outcome = Option.some BattleOutcome.win ∧
    (playCard false 0 stateBurnWin).1.enemyEffects = [mkStatusEffect burnKillCard] ∧
    (playCard false 0 stateBurnWin).1.enemyEffects ≠ [] :=
  ⟨rfl, rfl, by decide⟩

/-- Claim C9, amended: ending a battle sets only the outcome and startNewBattle
clears only the transient fields; neither empties the status-effect ledgers,
which are reset only by the next startBattle. -/
theorem battle_end_keeps_ledgers (o : BattleOutcome) (s : BattleState)
    (health maxHealth : Nat) (hand enemyHand : List Card) (level : Nat) :
    (endBattle o s).playerEffects = s.playerEffects ∧
    (endBattle o s).enemyEffects = s.enemyEffects ∧
    (startNewBattle s).playerEffects = s.playerEffects ∧
    (startNewBattle s).enemyEffects = s.enemyEffects ∧
    (startBattle health maxHealth hand enemyHand level s).playerEffects = [] ∧
    (startBattle health maxHealth hand enemyHand level s).enemyEffects = [] :=
  ⟨rfl, rfl, rfl, rfl, rfl, rfl⟩

/-- Claim C5: once the outcome is non-null, playCard (any index, any reward
roll) and endTurn return the state completely unchanged and schedule nothing,
so in particular the two health fields and the two ledgers are untouched. -/
theorem terminal_state_noop (rewardRoll : Bool) (cardIndex : Nat)
    (s : BattleState) (o : BattleOutcome) (h : s.outcome = Option.some o) :
    playCard rewardRoll cardIndex s = (s, []) ∧ endTurn s = (s, []) := by
  constructor
  · simp [playCard, h]
  · simp [endTurn, h]

/-- Claim C5, witness: the ended fixture battle is left untouched. -/
theorem terminal_state_noop_witness :
    playCard true 0 stateEnded = (stateEnded, []) ∧ endTurn stateEnded = (stateEnded, []) :=
  terminal_state_noop true 0 stateEnded BattleOutcome.win rfl

/-- Claim C1, amended: applyCardEffect always places the new StatusEffect on
the ledger of the target it is invoked with, which at both call sites is the
defender: a player-played card (target enemy) appends to the enemy ledger and
leaves the player ledger alone, and an enemy-played card (target player)
appends to the player ledger, with the immediate heal applied to the player.
For the enemy target the append happens whenever the immediate burn damage, if
any, does not end the battle. -/
theorem effect_placement_target_side (card : Card) (s : BattleState)
    (hne : card.effect ≠ CardEffect.none) :
    ((applyCardEffect card Target.player s).playerEffects
        = s.playerEffects ++ [mkStatusEffect card] ∧
      (applyCardEffect card Target.player s).enemyEffects = s.enemyEffects ∧
      (applyCardEffect card Target.player s).enemyHealth = s.enemyHealth ∧
      (card.effect = CardEffect.heal →
        (applyCardEffect card Target.player s).playerHealth
          = min s.playerMaxHealth (s.playerHealth + card.effPower))) ∧
    ((if card.effect = CardEffect.burn then card.effPower else 0) < s.enemyHealth →
      (applyCardEffect card Target.enemy s).enemyEffects
        = s.enemyEffects ++ [mkStatusEffect card] ∧
      (applyCardEffect card Target.enemy s).playerEffects = s.playerEffects ∧
      (applyCardEffect card Target.enemy s).playerHealth = s.playerHealth) := by
  constructor
  · simp only [applyCardEffect, if_neg hne]
    refine ⟨trivial, trivial, trivial, fun hh => ?_⟩
    simp [hh]
  · intro hlt
    by_cases hb : card.effect = CardEffect.burn
    · have hlt2 : card.effPower < s.enemyHealth := by rwa [if_pos hb] at hlt
      have hpos : ¬ s.enemyHealth - card.effPower ≤ 0 := by omega
      have hstun : card.effect ≠ CardEffect.stun := by simp [hb]
      simp only [applyCardEffect, if_neg hne]
      simp [hb, hpos, hstun]
    · have hlt2 : 0 < s.enemyHealth := by rwa [if_neg hb] at hlt
      have hpos : ¬ s.enemyHealth ≤ 0 := by omega
      simp only [applyCardEffect, if_neg hne]
      by_cases hstun : card.effect = CardEffect.stun <;> simp [hb, hpos, hstun]

/-- Claim C1, amended, witness: the shield card applied with target enemy on
the heal fixture state lands on the enemy ledger. -/
theorem effect_placement_target_side_witness :
    (applyCardEffect shieldCard Target.enemy stateHealTarget).enemyEffects
      = stateHealTarget.enemyEffects ++ [mkStatusEffect shieldCard] ∧
    (applyCardEffect shieldCard Target.enemy stateHealTarget).playerEffects
      = stateHealTarget.playerEffects :=
  ⟨((effect_placement_target_side shieldCard stateHealTarget (by decide)).2 (by decide)).1,
   ((effect_placement_target_side shieldCard stateHealTarget (by decide)).2 (by decide)).2.1⟩

/-- Claim C4, amended: when the defender has no reflect entries and survives
the first (shield-reduced) hit, a double-attack card subtracts the same
effective power a second time directly from the current health, floored at 0
and with no second shield reduction; the battle ends in a win exactly when the
second full-power hit is lethal. -/
theorem double_attack_second_hit (rewardRoll : Bool) (card : Card) (ap : Nat)
    (σ : BattleState)
    (hda : card.effect = CardEffect.double_attack)
    (hrefl : σ.enemyEffects.filter (fun e => e.effect = CardEffect.reflect) = [])
    (hfirst : 0 < applyShieldedDamage ap σ.enemyHealth σ.enemyEffects) :
    (playCardResolve rewardRoll card ap σ).enemyHealth
      = applyShieldedDamage ap σ.enemyHealth σ.enemyEffects - ap ∧
    (playCardResolve rewardRoll card ap σ).outcome
      = (if applyShieldedDamage ap σ.enemyHealth σ.enemyEffects ≤ ap
         then Option.some BattleOutcome.win else σ.outcome) := by
  have hfirstne : ¬ applyShieldedDamage ap σ.enemyHealth σ.enemyEffects ≤ 0 := by omega
  have henemy : 0 < σ.enemyHealth := by
    have h := hfirst
    unfold applyShieldedDamage at h
    by_cases hs : (σ.enemyEffects.filter (fun e => e.effect = CardEffect.shield)).length > 0
    · rw [if_pos hs] at h
      omega
    · rw [if_neg hs] at h
      omega
  have hleech : card.effect ≠ CardEffect.leech := by simp [hda]
  have hlive : applyCardEffect card Target.enemy σ
      = { σ with enemyEffects := σ.enemyEffects ++ [mkStatusEffect card] } := by
    have hne : card.effect ≠ CardEffect.none := by simp [hda]
    have hb : card.effect ≠ CardEffect.burn := by simp [hda]
    have hstun : card.effect ≠ CardEffect.stun := by simp [hda]
    have hpos : ¬ σ.enemyHealth ≤ 0 := by omega
    simp only [applyCardEffect, if_neg hne]
    simp [hb, hstun, hpos]
  by_cases hsec : applyShieldedDamage ap σ.enemyHealth σ.enemyEffects ≤ ap
  · have h0 : applyShieldedDamage ap σ.enemyHealth σ.enemyEffects - ap ≤ 0 := by omega
    simp only [playCardResolve, hrefl, List.length_nil, gt_iff_lt, Nat.lt_irrefl,
      false_and, if_false, if_neg hfirstne, if_neg hleech, hlive, if_pos hda,
      if_pos h0, if_pos hsec]
    refine ⟨?_, rfl⟩
    show (0 : Nat) = applyShieldedDamage ap σ.enemyHealth σ.enemyEffects - ap
    omega
  · have h0 : ¬ applyShieldedDamage ap σ.enemyHealth σ.enemyEffects - ap ≤ 0 := by omega
    simp only [playCardResolve, hrefl, List.length_nil, gt_iff_lt, Nat.lt_irrefl,
      false_and, if_false, if_neg hfirstne, if_neg hleech, hlive, if_pos hda,
      if_neg h0, if_neg hsec]
    exact ⟨trivial, trivial⟩

/-- Claim C4, amended, witness: the spec scenario, effective power 10 against
15 health and no shield, run through the resolution snapshot. -/
theorem double_attack_second_hit_witness :
    (playCardResolve false daCard 10 stateDoubleSnap).enemyHealth
      = applyShieldedDamage 10 stateDoubleSnap.enemyHealth stateDoubleSnap.enemyEffects - 10 ∧
    (playCardResolve false daCard 10 stateDoubleSnap).outcome
      = (if applyShieldedDamage 10 stateDoubleSnap.enemyHealth stateDoubleSnap.enemyEffects ≤ 10
         then Option.some BattleOutcome.win else stateDoubleSnap.outcome) :=
  double_attack_second_hit false daCard 10 stateDoubleSnap (by decide) (by decide) (by decide)

/-- Frame fact: applyCardEffect never touches the experience log. -/
lemma applyCardEffect_expGained (c : Card) (t : Target) (s : BattleState) :
    (applyCardEffect c t s).expGained = s.expGained := by
  cases t <;> simp only [applyCardEffect] <;> split_ifs <;> rfl

/-- Frame fact: applyCardEffect never touches the reward counter. -/
lemma applyCardEffect_rewards (c : Card) (t : Target) (s : BattleState) :
    (applyCardEffect c t s).rewardsGranted = s.rewardsGranted := by
  cases t <;> simp only [applyCardEffect] <;> split_ifs <;> rfl

/-- Claim C8, amended: when the defender carries reflect entries, only the
first one is used, reflected damage is floor(effectivePower * reflectPower /
100), and a lethal reflection ends the battle before leech, double attack and
the status application run; but the resolution commits only the outcome and
the attacker health (set to 0) — the state is otherwise exactly the snapshot,
so the damage computed against the defender in the shield step is
discarded. -/
theorem reflect_death_discards_defender_damage (rewardRoll : Bool) (card : Card)
    (ap : Nat) (σ : BattleState) (r : StatusEffect) (rest : List StatusEffect)
    (hr : σ.enemyEffects.filter (fun e => e.effect = CardEffect.reflect) = r :: rest)
    (hdead : σ.playerHealth ≤ ap * r.power / 100) :
    playCardResolve rewardRoll card ap σ
      = { endBattle BattleOutcome.lose σ with playerHealth := 0 } := by
  have hlen : (σ.enemyEffects.filter (fun e => e.effect = CardEffect.reflect)).length > 0 := by
    rw [hr]
    simp
  have hamt : reflectAmount ap σ.enemyEffects = ap * r.power / 100 := by
    unfold reflectAmount
    rw [hr]
    rfl
  have hzero : σ.playerHealth - reflectAmount ap σ.enemyEffects ≤ 0 := by
    rw [hamt]
    omega
  have hcond : ((σ.enemyEffects.filter (fun e => e.effect = CardEffect.reflect)).length > 0
      ∧ σ.playerHealth - reflectAmount ap σ.enemyEffects ≤ 0) := ⟨hlen, hzero⟩
  simp only [playCardResolve, if_pos hlen, if_pos hcond]

/-- Claim C8, amended, witness: two stacked 50 percent reflect entries still
reflect only 50 percent, here lethal for the player at 5 health; the enemy
keeps its snapshot health. -/
theorem reflect_death_discards_defender_damage_witness :
    playCardResolve false (plainCard 10) 10 stateReflectSnap
      = { endBattle BattleOutcome.lose stateReflectSnap with playerHealth := 0 } :=
  reflect_death_discards_defender_damage false (plainCard 10) 10 stateReflectSnap
    reflectEntry50 [reflectEntry50] (by decide) (by decide)

/-- Claim C7, amended: the experience award of 50 + level * 25 happens only for
wins inside the playCard resolution: the first-hit win also rolls the 70
percent reward card, the double-attack second-hit win awards experience but
never a reward card, and the other win paths set the outcome without awarding
anything: a win through the enemy having no cards, a win through reflected
damage killing the enemy during its own attack, a win through the immediate
burn damage of applyCardEffect, and a win through the burn status tick in
updateStatusEffects all leave both the experience log and the reward counter
untouched. -/
theorem win_award_paths (rewardRoll : Bool) (card : Card) (ap : Nat) (σ : BattleState)
    (hrefl : σ.enemyEffects.filter (fun e => e.effect = CardEffect.reflect) = []) :
    (applyShieldedDamage ap σ.enemyHealth σ.enemyEffects = 0 →
      (playCardResolve rewardRoll card ap σ).expGained = σ.expGained ++ [50 + σ.level * 25] ∧
      (playCardResolve rewardRoll card ap σ).rewardsGranted
        = σ.rewardsGranted + (if rewardRoll then 1 else 0) ∧
      (playCardResolve rewardRoll card ap σ).outcome = Option.some BattleOutcome.win) ∧
    (card.effect = CardEffect.double_attack →
      0 < applyShieldedDamage ap σ.enemyHealth σ.enemyEffects →
      applyShieldedDamage ap σ.enemyHealth σ.enemyEffects ≤ ap →
      (playCardResolve rewardRoll card ap σ).expGained = σ.expGained ++ [50 + σ.level * 25] ∧
      (playCardResolve rewardRoll card ap σ).rewardsGranted = σ.rewardsGranted) ∧
    (∀ randIdx : Nat, ∀ s : BattleState,
      (fireTimer randIdx (Timer.enemyAct []) s).1.outcome = Option.some BattleOutcome.win ∧
      (fireTimer randIdx (Timer.enemyAct []) s).1.expGained = s.expGained ∧
      (fireTimer randIdx (Timer.enemyAct []) s).1.rewardsGranted = s.rewardsGranted) ∧
    (∀ (c : Card) (bp : Nat) (τ : BattleState) (r : StatusEffect) (rest : List StatusEffect),
      τ.playerEffects.filter (fun e => e.effect = CardEffect.reflect) = r :: rest →
      τ.enemyHealth ≤ bp * r.power / 100 →
      (enemyResolve c bp τ).outcome = Option.some BattleOutcome.win ∧
      (enemyResolve c bp τ).expGained = τ.expGained ∧
      (enemyResolve c bp τ).rewardsGranted = τ.rewardsGranted) ∧
    (∀ (c : Card) (τ : BattleState),
      c.effect = CardEffect.burn →
      τ.enemyHealth ≤ c.effPower →
      (applyCardEffect c Target.enemy τ).outcome = Option.some BattleOutcome.win ∧
      (applyCardEffect c Target.enemy τ).expGained = τ.expGained ∧
      (applyCardEffect c Target.enemy τ).rewardsGranted = τ.rewardsGranted) ∧
    (∀ τ : BattleState,
      τ.currentTurn = BattleTurn.enemy →
      0 < τ.playerHealth →
      tickBurn τ.enemyHealth τ.enemyEffects = 0 →
      (updateStatusEffects τ).outcome = Option.some BattleOutcome.win ∧
      (updateStatusEffects τ).expGained = τ.expGained ∧
      (updateStatusEffects τ).rewardsGranted = τ.rewardsGranted) := by
  refine ⟨fun h0 => ?_, fun hda hfirst hsec => ?_, fun randIdx s => ⟨rfl, rfl, rfl⟩,
    fun c bp τ r rest hr hdead => ?_, fun c τ hb hle => ?_, fun τ ht hp htick => ?_⟩
  · have hfhle : applyShieldedDamage ap σ.enemyHealth σ.enemyEffects ≤ 0 := by omega
    have he := applyCardEffect_expGained card Target.enemy σ
    have hw := applyCardEffect_rewards card Target.enemy σ
    simp only [playCardResolve, hrefl, List.length_nil, gt_iff_lt, Nat.lt_irrefl,
      false_and, if_false, if_pos hfhle]
    cases rewardRoll <;>
      simp [gainExperience, addRewardCard, endBattle, he, hw]
  · have hfirstne : ¬ applyShieldedDamage ap σ.enemyHealth σ.enemyEffects ≤ 0 := by omega
    have henemy : 0 < σ.enemyHealth := by
      have h := hfirst
      unfold applyShieldedDamage at h
      by_cases hs : (σ.enemyEffects.filter (fun e => e.effect = CardEffect.shield)).length > 0
      · rw [if_pos hs] at h
        omega
      · rw [if_neg hs] at h
        omega
    have hleech : card.effect ≠ CardEffect.leech := by simp [hda]
    have hlive : applyCardEffect card Target.enemy σ
        = { σ with enemyEffects := σ.enemyEffects ++ [mkStatusEffect card] } := by
      have hne : card.effect ≠ CardEffect.none := by simp [hda]
      have hb : card.effect ≠ CardEffect.burn := by simp [hda]
      have hstun : card.effect ≠ CardEffect.stun := by simp [hda]
      have hpos : ¬ σ.enemyHealth ≤ 0 := by omega
      simp only [applyCardEffect, if_neg hne]
      simp [hb, hstun, hpos]
    have h0 : applyShieldedDamage ap σ.enemyHealth σ.enemyEffects - ap ≤ 0 := by omega
    simp only [playCardResolve, hrefl, List.length_nil, gt_iff_lt, Nat.lt_irrefl,
      false_and, if_false, if_neg hfirstne, if_neg hleech, hlive, if_pos hda,
      if_pos h0]
    exact ⟨rfl, rfl⟩
  · have hlen : (τ.playerEffects.filter (fun e => e.effect = CardEffect.reflect)).length > 0 := by
      rw [hr]
      simp
    have hamt : reflectAmount bp τ.playerEffects = bp * r.power / 100 := by
      unfold reflectAmount
      rw [hr]
      rfl
    have hzero : τ.enemyHealth - reflectAmount bp τ.playerEffects ≤ 0 := by
      rw [hamt]
      omega
    have hcond : ((τ.playerEffects.filter (fun e => e.effect = CardEffect.reflect)).length > 0
        ∧ τ.enemyHealth - reflectAmount bp τ.playerEffects ≤ 0) := ⟨hlen, hzero⟩
    simp only [enemyResolve, if_pos hlen, if_pos hcond]
    exact ⟨rfl, rfl, rfl⟩
  · have hne : c.effect ≠ CardEffect.none := by simp [hb]
    have hnp : τ.enemyHealth - c.effPower ≤ 0 := by omega
    refine ⟨?_, ?_, ?_⟩ <;> simp [applyCardEffect, hne, hb, hnp, endBattle]
  · have hnp : ¬ τ.playerHealth ≤ 0 := by omega
    have h2 : tickBurn τ.enemyHealth τ.enemyEffects ≤ 0 := by omega
    refine ⟨?_, ?_, ?_⟩ <;> simp [updateStatusEffects, ht, hnp, h2, endBattle]

/-- Claim C7, amended, witness: a lethal first hit of power 10 against the
enemy at 8 health with a winning reward roll awards 75 experience at level 1
and one reward card; and three concrete no-award wins: the enemy at 10 health
killed by its reflected power-10 attack, the enemy at 4 health finished by the
immediate damage of a burn-5 card, and the enemy at 3 health ticked to 0 by
its burn entry, each set the outcome to win with the experience log and the
reward counter untouched. -/
theorem win_award_paths_witness :
    ((playCardResolve true (plainCard 10) 10 stateLethalSnap).expGained
        = stateLethalSnap.expGained ++ [50 + stateLethalSnap.level * 25] ∧
      (playCardResolve true (plainCard 10) 10 stateLethalSnap).rewardsGranted
        = stateLethalSnap.rewardsGranted + (if true then 1 else 0) ∧
      (playCardResolve true (plainCard 10) 10 stateLethalSnap).outcome
        = Option.some BattleOutcome.win) ∧
    ((enemyResolve (plainCard 10) 10 stateEnemyReflectWin).outcome
        = Option.some BattleOutcome.win ∧
      (enemyResolve (plainCard 10) 10 stateEnemyReflectWin).expGained
        = stateEnemyReflectWin.expGained ∧
      (enemyResolve (plainCard 10) 10 stateEnemyReflectWin).rewardsGranted
        = stateEnemyReflectWin.rewardsGranted) ∧
    ((applyCardEffect burnKillCard Target.enemy stateBurnFinisher).outcome
        = Option.some BattleOutcome.win ∧
      (applyCardEffect burnKillCard Target.enemy stateBurnFinisher).expGained
        = stateBurnFinisher.expGained ∧
      (applyCardEffect burnKillCard Target.enemy stateBurnFinisher).rewardsGranted
        = stateBurnFinisher.rewardsGranted) ∧
    ((updateStatusEffects stateTickWin).outcome = Option.some BattleOutcome.win ∧
      (updateStatusEffects stateTickWin).expGained = stateTickWin.expGained ∧
      (updateStatusEffects stateTickWin).rewardsGranted = stateTickWin.rewardsGranted) :=
  ⟨(win_award_paths true (plainCard 10) 10 stateLethalSnap (by decide)).1 (by decide),
   (win_award_paths true (plainCard 10) 10 stateLethalSnap (by decide)).2.2.2.1
     (plainCard 10) 10 stateEnemyReflectWin reflectEntry100 [] (by decide) (by decide),
   (win_award_paths true (plainCard 10) 10 stateLethalSnap (by decide)).2.2.2.2.1
     burnKillCard stateBurnFinisher (by decide) (by decide),
   (win_award_paths true (plainCard 10) 10 stateLethalSnap (by decide)).2.2.2.2.2
     stateTickWin (by decide) (by decide) (by decide)⟩

/-- The sequential burn tick never increases health. -/
lemma tickBurn_le (l : List StatusEffect) (h : Nat) : tickBurn h l ≤ h := by
  induction l generalizing h with
  | nil => exact Nat.le_refl h
  | cons e l ih =>
    have h1 : tickBurn h (e :: l)
        = tickBurn (if e.effect = CardEffect.burn then h - e.power else h) l := rfl
    rw [h1]
    refine Nat.le_trans (ih _) ?_
    split <;> omega

/-- The shield-then-damage step never increases the defender health. -/
lemma applyShieldedDamage_le (ap h : Nat) (effects : List StatusEffect) :
    applyShieldedDamage ap h effects ≤ h := by
  unfold applyShieldedDamage
  split <;> omega

/-- Frame fact: applyCardEffect never changes either max-health field. -/
lemma applyCardEffect_maxes (c : Card) (t : Target) (s : BattleState) :
    (applyCardEffect c t s).playerMaxHealth = s.playerMaxHealth ∧
    (applyCardEffect c t s).enemyMaxHealth = s.enemyMaxHealth := by
  cases t <;> simp only [applyCardEffect] <;> split_ifs <;> exact ⟨rfl, rfl⟩

/-- updateStatusEffects preserves the health bounds. -/
lemma healthInv_updateStatusEffects (s : BattleState) (hs : HealthInv s) :
    HealthInv (updateStatusEffects s) := by
  obtain ⟨hp, he⟩ := hs
  unfold HealthInv
  simp only [updateStatusEffects]
  set a := (if s.currentTurn = BattleTurn.player
    then tickBurn s.playerHealth s.playerEffects else s.playerHealth) with ha
  set b := (if s.currentTurn = BattleTurn.enemy
    then tickBurn s.enemyHealth s.enemyEffects else s.enemyHealth) with hb
  have hple : a ≤ s.playerHealth := by
    rw [ha]
    split
    · exact tickBurn_le _ _
    · exact Nat.le_refl _
  have henle : b ≤ s.enemyHealth := by
    rw [hb]
    split
    · exact tickBurn_le _ _
    · exact Nat.le_refl _
  split_ifs
  · exact ⟨Nat.zero_le _, he⟩
  · exact ⟨hp, Nat.zero_le _⟩
  · exact ⟨Nat.le_trans hple hp, Nat.le_trans henle he⟩

/-- applyCardEffect preserves the health bounds. -/
lemma healthInv_applyCardEffect (c : Card) (t : Target) (s : BattleState) (hs : HealthInv s) :
    HealthInv (applyCardEffect c t s) := by
  obtain ⟨hp, he⟩ := hs
  unfold HealthInv
  cases t <;> simp only [applyCardEffect] <;> split_ifs <;> refine ⟨?_, ?_⟩ <;>
    first
      | exact hp
      | exact he
      | exact Nat.zero_le _
      | exact Nat.min_le_left _ _
      | exact Nat.le_trans (Nat.sub_le _ _) he

/-- The playCard resolution step preserves the health bounds. -/
lemma healthInv_playCardResolve (roll : Bool) (c : Card) (ap : Nat) (σ : BattleState)
    (hs : HealthInv σ) : HealthInv (playCardResolve roll c ap σ) := by
  obtain ⟨hp, he⟩ := hs
  have hm := applyCardEffect_maxes c Target.enemy σ
  have hsd := applyShieldedDamage_le ap σ.enemyHealth σ.enemyEffects
  unfold HealthInv
  cases roll <;>
    simp only [playCardResolve, addRewardCard, gainExperience, endBattle] <;>
    split_ifs <;>
    refine ⟨?_, ?_⟩ <;>
    simp only [hm.1, hm.2] <;>
    omega

/-- Frame fact: applyCardEffect with target player never changes the enemy
health. -/
lemma applyCardEffect_player_enemyHealth (c : Card) (s : BattleState) :
    (applyCardEffect c Target.player s).enemyHealth = s.enemyHealth := by
  simp only [applyCardEffect]
  split_ifs <;> rfl

/-- The enemy-attack resolution step preserves the health bounds. -/
lemma healthInv_enemyResolve (c : Card) (ap : Nat) (σ : BattleState)
    (hs : HealthInv σ) : HealthInv (enemyResolve c ap σ) := by
  obtain ⟨hp, he⟩ := hs
  have hm := applyCardEffect_maxes c Target.player σ
  have hf := applyCardEffect_player_enemyHealth c σ
  have hsd := applyShieldedDamage_le ap σ.playerHealth σ.playerEffects
  unfold HealthInv
  simp only [enemyResolve, endBattle]
  split_ifs <;>
    refine ⟨?_, ?_⟩ <;>
    simp only [hm.1, hm.2, hf] <;>
    omega

/-- The enemy-action callback preserves the health bounds. -/
lemma healthInv_fireEnemyAct (randIdx : Nat) (cards : List Card) (s : BattleState)
    (hs : HealthInv s) : HealthInv (fireEnemyAct randIdx cards s).1 := by
  simp only [fireEnemyAct]
  split_ifs
  · exact healthInv_enemyResolve _ _ _ hs
  · exact hs

/-- endTurn preserves the health bounds. -/
lemma healthInv_endTurn (s : BattleState) (hs : HealthInv s) :
    HealthInv (endTurn s).1 := by
  simp only [endTurn]
  split_ifs <;>
    first
      | exact hs
      | exact healthInv_updateStatusEffects s hs

/-- playCard preserves the health bounds. -/
lemma healthInv_playCard (roll : Bool) (idx : Nat) (s : BattleState) (hs : HealthInv s) :
    HealthInv (playCard roll idx s).1 := by
  simp only [playCard]
  split_ifs <;>
    first
      | exact hs
      | exact healthInv_endTurn _ hs
      | exact healthInv_playCardResolve _ _ _ _ hs

/-- Firing any timer preserves the health bounds. -/
lemma healthInv_fireTimer (randIdx : Nat) (t : Timer) (s : BattleState) (hs : HealthInv s) :
    HealthInv (fireTimer randIdx t s).1 := by
  cases t with
  | returnToPlayer => exact hs
  | enemyAct cards => exact healthInv_fireEnemyAct randIdx cards s hs

/-- Every single battle step preserves the health bounds. -/
lemma healthInv_step {a b : BattleState} (hstep : Step a b) (ha : HealthInv a) :
    HealthInv b := by
  cases hstep with
  | start health maxHealth hand enemyHand level =>
    rename_i hle
    exact ⟨hle, Nat.le_refl _⟩
  | play roll idx => exact healthInv_playCard roll idx a ha
  | turn => exact healthInv_endTurn a ha
  | fire randIdx t => exact healthInv_fireTimer randIdx t a ha
  | applyEff c t => exact healthInv_applyCardEffect c t a ha
  | updateEff => exact healthInv_updateStatusEffects a ha
  | endB o => exact ha
  | newBattle => exact ha

/-- Claim C6: in every reachable battle state the player health is between 0
and the player max health and the enemy health between 0 and the enemy max
health (the lower bounds hold definitionally with Nat health, reflecting that
every health mutation in the source is clamped with max(0, _) and every heal
with min(maxHealth, _)). -/
theorem health_within_bounds (s : BattleState) (h : Reachable s) :
    s.playerHealth ≤ s.playerMaxHealth ∧ s.enemyHealth ≤ s.enemyMaxHealth := by
  have inv : HealthInv s := by
    induction h with
    | refl => exact ⟨Nat.le_refl _, Nat.le_refl _⟩
    | tail _ hstep ih => exact healthInv_step hstep ih
  exact inv

/-- Claim C6, witness: the initial store state is reachable and satisfies the
bounds. -/
theorem health_within_bounds_witness :
    initState.playerHealth ≤ initState.playerMaxHealth ∧
    initState.enemyHealth ≤ initState.enemyMaxHealth :=
  health_within_bounds initState Relation.ReflTransGen.refl

/-- Frame fact: applyCardEffect never writes the player skip flag (its stun
case sets only enemySkipNextTurn). -/
lemma pskip_applyCardEffect (c : Card) (t : Target) (s : BattleState) :
    (applyCardEffect c t s).playerSkipNextTurn = s.playerSkipNextTurn := by
  cases t <;> simp only [applyCardEffect] <;> split_ifs <;> rfl

/-- Frame fact: updateStatusEffects never writes the player skip flag. -/
lemma pskip_updateStatusEffects (s : BattleState) :
    (updateStatusEffects s).playerSkipNextTurn = s.playerSkipNextTurn := by
  simp only [updateStatusEffects]
  split_ifs <;> rfl

/-- Frame fact: the playCard resolution never writes the player skip flag. -/
lemma pskip_playCardResolve (roll : Bool) (c : Card) (ap : Nat) (σ : BattleState) :
    (playCardResolve roll c ap σ).playerSkipNextTurn = σ.playerSkipNextTurn := by
  have hf := pskip_applyCardEffect c Target.enemy σ
  cases roll <;>
    simp only [playCardResolve, addRewardCard, gainExperience, endBattle] <;>
    split_ifs <;>
    first
      | rfl
      | exact hf

/-- Frame fact: the enemy-attack resolution never writes the player skip
flag. -/
lemma pskip_enemyResolve (c : Card) (ap : Nat) (σ : BattleState) :
    (enemyResolve c ap σ).playerSkipNextTurn = σ.playerSkipNextTurn := by
  have hf := pskip_applyCardEffect c Target.player σ
  simp only [enemyResolve, endBattle]
  split_ifs <;>
    first
      | rfl
      | exact hf

/-- Frame fact: the enemy-action callback never writes the player skip flag. -/
lemma pskip_fireEnemyAct (randIdx : Nat) (cards : List Card) (s : BattleState) :
    (fireEnemyAct randIdx cards s).1.playerSkipNextTurn = s.playerSkipNextTurn := by
  simp only [fireEnemyAct]
  split_ifs
  · exact pskip_enemyResolve _ _ _
  · rfl

/-- Frame fact: neither timer writes the player skip flag. -/
lemma pskip_fireTimer (randIdx : Nat) (t : Timer) (s : BattleState) :
    (fireTimer randIdx t s).1.playerSkipNextTurn = s.playerSkipNextTurn := by
  cases t with
  | returnToPlayer => rfl
  | enemyAct cards => exact pskip_fireEnemyAct randIdx cards s

/-- Frame fact: endTurn never writes the player skip flag. -/
lemma pskip_endTurn (s : BattleState) :
    (endTurn s).1.playerSkipNextTurn = s.playerSkipNextTurn := by
  have hf := pskip_updateStatusEffects s
  simp only [endTurn]
  split_ifs <;>
    first
      | rfl
      | exact hf

/-- playCard keeps the player skip flag false: its only write of the flag is
the consume branch, which sets it to false. -/
lemma pskip_playCard (roll : Bool) (idx : Nat) (s : BattleState)
    (h : s.playerSkipNextTurn = false) :
    (playCard roll idx s).1.playerSkipNextTurn = false := by
  simp only [playCard]
  split_ifs <;>
    first
      | exact h
      | exact pskip_endTurn { s with playerSkipNextTurn := false }
      | exact (pskip_playCardResolve roll _ _ _).trans h

/-- Every single battle step keeps the player skip flag false. -/
lemma pskip_step {a b : BattleState} (hstep : Step a b)
    (ha : a.playerSkipNextTurn = false) : b.playerSkipNextTurn = false := by
  cases hstep with
  | start health maxHealth hand enemyHand level =>
    rename_i hle
    rfl
  | play roll idx => exact pskip_playCard roll idx a ha
  | turn => exact (pskip_endTurn a).trans ha
  | fire randIdx t => exact (pskip_fireTimer randIdx t a).trans ha
  | applyEff c t => exact (pskip_applyCardEffect c t a).trans ha
  | updateEff => exact (pskip_updateStatusEffects a).trans ha
  | endB o => exact ha
  | newBattle => exact ha

/-- Claim C10: in every reachable battle state playerSkipNextTurn is false: no
operation ever sets it to true (the stun case of applyCardEffect sets only
enemySkipNextTurn), so the stun-skip branch of playCard is never entered and
an enemy stun card never actually stuns the player. -/
theorem player_never_stunned (s : BattleState) (h : Reachable s) :
    s.playerSkipNextTurn = false := by
  induction h with
  | refl => rfl
  | tail _ hstep ih => exact pskip_step hstep ih

/-- Claim C10, witness: the initial store state is reachable and has the flag
false. -/
theorem player_never_stunned_witness : initState.playerSkipNextTurn = false :=
  player_never_stunned initState Relation.ReflTransGen.refl

end GameQuest
